import Mathlib

/-!
Verification of the orderflow-component repository core.

This file shallow-embeds the data model and the operations of the
repository's core subsystems:

* the rolling-window aggregator of `src/components/orderflow/OrderFlowCanvas.tsx`
  (`pruneWindow`, `recomputeTotals`, `updateStats`, the `onOrderReceived`
  ingestion handler and the `windowSeconds` effect),
* the particle pool of the same file (`spawnParticle`),
* the live trade normalization pipeline of
  `src/lib/orderflow/useHyperliquidStream.ts` (`handleTrade` inside
  `subscribeToTrades`, and the hook's trade callback with its recent-id
  de-duplication),
* the `HyperliquidWebSocket` connect/disconnect/reconnect state machine of
  the same file, embedded as a step function over an explicit world state
  (client fields plus the set of physical sockets ever created, each with
  its per-connect-attempt `resolved` flag and close-handler status).

JavaScript numbers are modelled as exact rationals (`ℚ`); the clamping
`Math.max(0, _)` / `Math.min(1, Math.max(0, _))` expressions of the source
are carried over literally.  Results of JS `Number()` coercion are modelled
as `Option ℚ` (`none` = `NaN`); non-finite numbers (`Infinity`) are outside
the model's value domain.
-/

namespace Orderflow

/-- JS `Math.max` on (NaN-free) numbers. -/
def rmax (a b : ℚ) : ℚ := if a ≤ b then b else a

/-- JS `Math.min` on (NaN-free) numbers. -/
def rmin (a b : ℚ) : ℚ := if a ≤ b then a else b

/-- JS `Math.abs` on (NaN-free) numbers. -/
def rabs (a : ℚ) : ℚ := if a < 0 then -a else a

/-- `OrderSide` from `src/lib/orderflow/types.ts`: `"buy" | "sell"`. -/
inductive OrderSide
  | buy
  | sell
deriving DecidableEq, Repr

/-- `OrderEvent` from `src/lib/orderflow/types.ts`. -/
structure OrderEvent where
  id : String
  side : OrderSide
  volume : ℚ
  timestamp : ℚ
deriving DecidableEq, Repr

/-- `OrderflowStats` from `src/lib/orderflow/types.ts` (share fields only;
the optional volume/count fields are never set by the canvas). -/
structure OrderflowStats where
  buyShare : ℚ
  sellShare : ℚ
deriving DecidableEq, Repr

/-- The aggregator state of `OrderFlowCanvas`: `queueRef`, `totalsRef`,
`countsRef`, `statsRef` and `windowMsRef` gathered into one record. -/
structure AggState where
  queue : List OrderEvent
  buy : ℚ
  sell : ℚ
  countBuy : ℕ
  countSell : ℕ
  stats : OrderflowStats
  windowMs : ℚ
deriving DecidableEq, Repr

/-- `const emaAlpha = 0.2` (OrderFlowCanvas.tsx line 32). -/
def emaAlpha : ℚ := 1/5

/-- Initial aggregator state: empty refs, `statsRef` starts at
`{ buyShare: 0.5, sellShare: 0.5 }`, window of `windowSeconds * 1000` ms. -/
def initAgg (windowMs : ℚ) : AggState :=
  { queue := [], buy := 0, sell := 0, countBuy := 0, countSell := 0,
    stats := { buyShare := 1/2, sellShare := 1/2 }, windowMs := windowMs }

/-- The `while` loop of `pruneWindow`: while the queue's front event is
older than the cutoff, shift it and subtract its volume from the matching
side's total, clamping both totals at 0 after every step. -/
def pruneGo (cutoff : ℚ) : List OrderEvent → ℚ → ℚ → List OrderEvent × ℚ × ℚ
  | [], buy, sell => ([], buy, sell)
  | e :: rest, buy, sell =>
    if e.timestamp < cutoff then
      let buy1 := if e.side = OrderSide.buy then buy - e.volume else buy
      let sell1 := if e.side = OrderSide.buy then sell else sell - e.volume
      pruneGo cutoff rest (rmax 0 buy1) (rmax 0 sell1)
    else
      (e :: rest, buy, sell)

/-- `pruneWindow` (OrderFlowCanvas.tsx lines 119-130), with the call-time
`Date.now()` passed in as `now`. -/
def pruneWindow (now : ℚ) (st : AggState) : AggState :=
  let cutoff := now - st.windowMs
  let r := pruneGo cutoff st.queue st.buy st.sell
  { st with queue := r.1, buy := r.2.1, sell := r.2.2 }

/-- `recomputeTotals` (OrderFlowCanvas.tsx lines 132-143): re-derive the
totals from the queued events that are inside the current window, without
removing any event from the queue. -/
def recomputeTotals (now : ℚ) (st : AggState) : AggState :=
  let cutoff := now - st.windowMs
  let inWin := st.queue.filter (fun o => cutoff ≤ o.timestamp)
  let buy := (inWin.map (fun o => if o.side = OrderSide.buy then o.volume else 0)).sum
  let sell := (inWin.map (fun o => if o.side = OrderSide.buy then 0 else o.volume)).sum
  { st with buy := rmax 0 buy, sell := rmax 0 sell }

/-- `rawBuy` inside `updateStats`: `total > 0 ? buy / total : 0.5`. -/
def rawBuyShare (buy sell : ℚ) : ℚ :=
  if 0 < buy + sell then buy / (buy + sell) else 1/2

/-- The `nextStats` value computed by `updateStats` before the hysteresis
test: prune, raw share, EMA smoothing against the stored share, clamp to
`[0,1]`, derive `sellShare = 1 - buyShare`. -/
def computeNextStats (now : ℚ) (st : AggState) : OrderflowStats :=
  let st1 := pruneWindow now st
  let raw := rawBuyShare st1.buy st1.sell
  let smoothed := emaAlpha * raw + (1 - emaAlpha) * st1.stats.buyShare
  let buyShare := rmin 1 (rmax 0 smoothed)
  { buyShare := buyShare, sellShare := 1 - buyShare }

/-- `updateStats` (OrderFlowCanvas.tsx lines 145-163).  Returns the new
aggregator state together with the value passed to the stats callback
(`none` when the hysteresis guard suppresses the update). -/
def updateStats (now : ℚ) (force : Bool) (st : AggState) :
    AggState × Option OrderflowStats :=
  let st1 := pruneWindow now st
  let next := computeNextStats now st
  if force = true ∨ 1/1000 < rabs (next.buyShare - st1.stats.buyShare) ∨
      1/1000 < rabs (next.sellShare - st1.stats.sellShare) then
    ({ st1 with stats := next }, some next)
  else
    (st1, none)

/-- The aggregator part of the `onOrderReceived` handler
(OrderFlowCanvas.tsx lines 70-80): push the order, add its volume to the
matching total, bump the matching count, clamp both totals at 0, then run
`updateStats()` (the particle spawn is modelled separately). -/
def ingestOrder (now : ℚ) (order : OrderEvent) (st : AggState) :
    AggState × Option OrderflowStats :=
  let buy1 := if order.side = OrderSide.buy then st.buy + order.volume else st.buy
  let sell1 := if order.side = OrderSide.buy then st.sell else st.sell + order.volume
  let st1 : AggState :=
    { st with
      queue := st.queue ++ [order],
      buy := rmax 0 buy1, sell := rmax 0 sell1,
      countBuy := if order.side = OrderSide.buy then st.countBuy + 1 else st.countBuy,
      countSell := if order.side = OrderSide.buy then st.countSell else st.countSell + 1 }
  updateStats now false st1

/-- The `windowSeconds` effect (OrderFlowCanvas.tsx lines 88-94): store the
new window length, `recomputeTotals()`, then `updateStats(true)`. -/
def setWindowLength (now : ℚ) (seconds : ℚ) (st : AggState) :
    AggState × Option OrderflowStats :=
  let st1 := recomputeTotals now { st with windowMs := seconds * 1000 }
  updateStats now true st1

/-- One aggregator operation, for stating trace invariants. -/
inductive AggOp
  | ingest (now : ℚ) (e : OrderEvent)
  | prune (now : ℚ)
  | setWindow (now : ℚ) (seconds : ℚ)
deriving Repr

/-- Apply one aggregator operation to a state. -/
def applyAggOp (st : AggState) : AggOp → AggState
  | AggOp.ingest now e => (ingestOrder now e st).1
  | AggOp.prune now => pruneWindow now st
  | AggOp.setWindow now seconds => (setWindowLength now seconds st).1

/-- The volumes ingested by an operation are non-negative. -/
def AggOp.volNonneg : AggOp → Prop
  | AggOp.ingest _ e => 0 ≤ e.volume
  | AggOp.prune _ => True
  | AggOp.setWindow _ _ => True

/-- Whether an operation is a window-length change. -/
def AggOp.isSetWindow : AggOp → Prop
  | AggOp.setWindow _ _ => True
  | _ => False

/-- Total volume of the queued events. -/
def queueVolume (q : List OrderEvent) : ℚ := (q.map (fun e => e.volume)).sum

/-- Total buy-side volume of the queued events. -/
def queueBuy (q : List OrderEvent) : ℚ :=
  (q.map (fun e => if e.side = OrderSide.buy then e.volume else 0)).sum

/-- Total sell-side volume of the queued events. -/
def queueSell (q : List OrderEvent) : ℚ :=
  (q.map (fun e => if e.side = OrderSide.buy then 0 else e.volume)).sum

/-! ## Particle pool (OrderFlowCanvas.tsx lines 100-117) -/

/-- `Particle` from OrderFlowCanvas.tsx.  `duration` and `radius` are
computed upstream with `Math.random()` / `Math.log` and are carried here as
given rational data; the pool policy under verification does not read them. -/
structure Particle where
  id : String
  side : OrderSide
  volume : ℚ
  birth : ℚ
  duration : ℚ
  radius : ℚ
deriving DecidableEq, Repr

/-- `const maxParticles = 400` (OrderFlowCanvas.tsx line 31). -/
def maxParticles : ℕ := 400

/-- `spawnParticle` pool update (OrderFlowCanvas.tsx lines 103-116): push
the new particle, then `splice(0, length - maxParticles)` whenever the
length exceeds the capacity. -/
def spawnParticle (pool : List Particle) (p : Particle) : List Particle :=
  let q := pool ++ [p]
  if maxParticles < q.length then q.drop (q.length - maxParticles) else q

/-! ## Live trade normalization (useHyperliquidStream.ts) -/

/-- The result of JS `Number()` coercion of a trade field, as the source
observes it: `missing` is an absent field (`Number(undefined) = NaN`),
`nonNumeric` a present value whose coercion is `NaN` (e.g. `"abc"`), and
`num q` a value coercing to the finite number `q`. -/
inductive JsField
  | missing
  | nonNumeric
  | num (q : ℚ)
deriving DecidableEq, Repr

/-- `Number()` coercion: `none` stands for `NaN`. -/
def JsField.toNumber : JsField → Option ℚ
  | JsField.missing => none
  | JsField.nonNumeric => none
  | JsField.num q => some q

/-- The raw `WsTrade` record delivered by the exchange
(useHyperliquidStream.ts lines 228-237), restricted to the fields the
pipeline reads.  `tid` and `hash` are `Option` because the claims concern
their absence; `isBuy` models the `(trade as {isBuy?: boolean}).isBuy`
duck-typed access. -/
structure WsTrade where
  coin : String
  side : String
  isBuy : Option Bool
  px : JsField
  sz : JsField
  time : ℚ
  tid : Option String
  hash : Option String
deriving DecidableEq, Repr

/-- `HyperliquidTrade` (useHyperliquidStream.ts lines 219-226) as built by
`handleTrade`: price and size are genuine numbers here. -/
structure HLTrade where
  coin : String
  side : String
  px : ℚ
  sz : ℚ
  time : ℚ
  tid : Option String
deriving DecidableEq, Repr

/-- `trade.time > 0 ? trade.time : Date.now()` (useHyperliquidStream.ts
lines 685-688). -/
def tradeTime (t : WsTrade) (now : ℚ) : ℚ := if 0 < t.time then t.time else now

/-- `trade.coin || coin` (useHyperliquidStream.ts line 694): JS falsy
fallback on the empty string. -/
def tradeCoin (t : WsTrade) (subCoin : String) : String :=
  if t.coin = "" then subCoin else t.coin

/-- `handleTrade` inside `subscribeToTrades` (useHyperliquidStream.ts lines
674-703): normalize the side by prefix (or `isBuy === true`), coerce price
and size with `Number()`, drop the trade when either coercion is `NaN`,
default the id to `trade.hash` when `trade.tid` is absent. -/
def handleTrade (subCoin : String) (now : ℚ) (t : WsTrade) : Option HLTrade :=
  let norm := t.side.trim.toLower
  let finalSide := if norm.startsWith "b" ∨ t.isBuy = some true then "B" else "S"
  match t.px.toNumber, t.sz.toNumber with
  | some px, some sz =>
    some { coin := tradeCoin t subCoin, side := finalSide, px := px, sz := sz,
           time := tradeTime t now,
           tid := match t.tid with
                  | some x => some x
                  | none => t.hash }
  | _, _ => none

/-- The generated fallback id
`` `${trade.coin}-${trade.time}-${Math.random().toString(36).slice(2,7)}` ``
(useHyperliquidStream.ts lines 42-45); the random suffix is an input. -/
def mkGenId (coin : String) (time : ℚ) (rand : String) : String :=
  coin ++ "-" ++ toString time ++ "-" ++ rand

/-- The trade callback registered by `useHyperliquidStream`'s `subscribe`
(useHyperliquidStream.ts lines 40-72): compute the id (falling back to a
random one), suppress it when it is in the recent-id set, otherwise record
the id (trimming the set to its most recent 400 entries when it exceeds
500), normalize the side by prefix, set
`volume = max(0, Number(sz) * Number(px))`, and hand the `OrderEvent` to
`onOrderReceived` — which is the canvas ingestion `ingestOrder`. -/
def tradeCallback (seen : List String) (st : AggState) (now : ℚ)
    (t : HLTrade) (rand : String) : List String × AggState × Option OrderEvent :=
  let id := match t.tid with
            | some x => x
            | none => mkGenId t.coin t.time rand
  if id ∈ seen then (seen, st, none)
  else
    let seen1 := seen ++ [id]
    let seen2 := if 500 < seen1.length then seen1.drop (seen1.length - 400) else seen1
    let normSide := t.side.toLower
    let side := if normSide.startsWith "b" then OrderSide.buy else OrderSide.sell
    let notional := t.sz * t.px
    let order : OrderEvent :=
      { id := id, side := side, volume := rmax 0 notional, timestamp := t.time }
    (seen2, (ingestOrder now order st).1, some order)

/-- The full live pipeline for one incoming trade record: `handleTrade`
followed by the hook's trade callback.  Returns the recent-id set, the
aggregator state, and the ingested event (if any). -/
def processTrade (seen : List String) (st : AggState) (subCoin : String)
    (now : ℚ) (t : WsTrade) (rand : String) :
    List String × AggState × Option OrderEvent :=
  match handleTrade subCoin now t with
  | none => (seen, st, none)
  | some hl => tradeCallback seen st now hl rand

/-! ## HyperliquidWebSocket client model (useHyperliquidStream.ts lines 248-826)

The class is embedded as a step function over a world holding the client's
private fields plus every physical `WebSocket` object ever created by a
`connect()` call.  Each socket record carries its phase, the `resolved`
local of the connect promise whose handlers it owns, and whether its
`onclose` handler has already run (browser sockets fire `close` at most
once).  Timer callbacks (`setTimeout` reconnects, the 15s connect watchdog)
and network events are delivered as explicit events; observable effects
(status notifications, frames sent, reconnects scheduled) are collected as
outputs. -/

/-- The status values passed to `notifyStatus`. -/
inductive WSStatus
  | connecting
  | connected
  | degraded
  | offline
deriving DecidableEq, Repr

/-- A `SubscriptionRecord` (key and request payload; callbacks are not
needed for the connection-level claims). -/
structure SubRec where
  key : String
  payload : String
deriving DecidableEq, Repr

/-- Lifecycle phase of one physical `WebSocket`. -/
inductive SockPhase
  | connecting
  | opened
  | closing
  | closed
deriving DecidableEq, Repr

/-- One physical socket: its phase, the `resolved` flag of the connect
promise that created it, and whether its `onclose` handler has run. -/
structure SockRec where
  phase : SockPhase
  resolved : Bool
  handled : Bool
deriving DecidableEq, Repr

/-- The private fields of `HyperliquidWebSocket`. -/
structure WSClientState where
  ws : Option ℕ
  isConnected : Bool
  manualDisconnect : Bool
  reconnectAttempts : ℕ
  subscriptions : List SubRec
  connectPromise : Bool
  heartbeatOn : Bool
deriving DecidableEq, Repr

/-- The world: client fields, every socket ever created (indexed by
creation order), and the number of scheduled-but-unfired reconnect timers. -/
structure WSWorld where
  client : WSClientState
  sockets : List SockRec
  pendingReconnects : ℕ
deriving DecidableEq, Repr

/-- Observable outputs of a step. -/
inductive WSOut
  | status (s : WSStatus)
  | send (sid : ℕ) (payload : String)
  | schedule (delayMs : ℕ)
  | created (sid : ℕ)
  | closeCall (sid : ℕ)
deriving DecidableEq, Repr

/-- Events delivered to the client: API calls, socket callbacks, timers. -/
inductive WSEvent
  | connectCall
  | disconnectCall
  | subscribeCall (s : SubRec)
  | unsubscribeCall (key : String)
  | openEvt (sid : ℕ)
  | closeEvt (sid : ℕ)
  | errorEvt (sid : ℕ)
  | timeoutEvt (sid : ℕ)
  | reconnectFire
deriving DecidableEq, Repr

/-- `private reconnectDelay = 1000`. -/
def reconnectDelay : ℕ := 1000

/-- `private maxReconnectDelay = 30000`. -/
def maxReconnectDelay : ℕ := 30000

/-- `this.ws && this.ws.readyState === WebSocket.OPEN`. -/
def sockIsOpen (sockets : List SockRec) (ws : Option ℕ) : Bool :=
  match ws with
  | some sid =>
    match sockets.get? sid with
    | some r => r.phase = SockPhase.opened
    | none => false
  | none => false

/-- Replace socket `sid`'s record (no-op when out of range, like the
original's null checks). -/
def setSock (sockets : List SockRec) (sid : ℕ) (r : SockRec) : List SockRec :=
  sockets.set sid r

/-- `resubscribeAll` (useHyperliquidStream.ts lines 814-821): when
`this.ws` is open, send every registered subscription payload on it. -/
def resubscribeAll (c : WSClientState) (sockets : List SockRec) : List WSOut :=
  match c.ws with
  | some sid =>
    if sockIsOpen sockets (some sid) then
      c.subscriptions.map (fun s => WSOut.send sid s.payload)
    else []
  | none => []

/-- `Map.set` on the subscription registry: overwrite in place when the key
exists, append otherwise. -/
def upsertSub (subs : List SubRec) (s : SubRec) : List SubRec :=
  if subs.any (fun t => t.key = s.key) then
    subs.map (fun t => if t.key = s.key then s else t)
  else subs ++ [s]

/-- `connect()` (useHyperliquidStream.ts lines 282-371): resolve at once
when the current socket is open, share the in-flight promise, otherwise
create a fresh socket, remember it as `this.ws` and notify `connecting`. -/
def doConnect (w : WSWorld) : WSWorld × List WSOut :=
  if sockIsOpen w.sockets w.client.ws then (w, [])
  else if w.client.connectPromise then (w, [])
  else
    let sid := w.sockets.length
    ({ w with
        sockets := w.sockets ++ [{ phase := SockPhase.connecting, resolved := false,
                                   handled := false }],
        client := { w.client with connectPromise := true, ws := some sid } },
     [WSOut.status WSStatus.connecting, WSOut.created sid])

/-- One step of the client.  Socket events on unknown, already-closed or
already-handled sockets are no-ops (a browser socket fires each lifecycle
event at most once). -/
def step (w : WSWorld) : WSEvent → WSWorld × List WSOut
  | WSEvent.connectCall => doConnect w
  | WSEvent.disconnectCall =>
    -- `disconnect()` lines 790-801: stop heartbeat, set manualDisconnect,
    -- clear subscriptions and the pending promise, notify offline, close
    -- the socket when it is open, null `this.ws`, clear `isConnected`.
    let c := w.client
    let closing :=
      match c.ws with
      | some sid =>
        if sockIsOpen w.sockets (some sid) then
          match w.sockets.get? sid with
          | some r => (setSock w.sockets sid { r with phase := SockPhase.closing },
                       [WSOut.closeCall sid])
          | none => (w.sockets, [])
        else (w.sockets, [])
      | none => (w.sockets, [])
    ({ client := { ws := none, isConnected := false, manualDisconnect := true,
                   reconnectAttempts := c.reconnectAttempts, subscriptions := [],
                   connectPromise := false, heartbeatOn := false },
       sockets := closing.1, pendingReconnects := w.pendingReconnects },
     WSOut.status WSStatus.offline :: closing.2)
  | WSEvent.subscribeCall s =>
    -- `addSubscription` lines 803-812.
    let outs :=
      match w.client.ws with
      | some sid => if sockIsOpen w.sockets (some sid) then [WSOut.send sid s.payload] else []
      | none => []
    ({ w with client := { w.client with
        subscriptions := upsertSub w.client.subscriptions s } }, outs)
  | WSEvent.unsubscribeCall key =>
    -- `unsubscribe` lines 777-788; the unsubscribe frame is abstracted.
    let outs :=
      if w.client.subscriptions.any (fun t => t.key = key) then
        match w.client.ws with
        | some sid =>
          if sockIsOpen w.sockets (some sid) then [WSOut.send sid ("unsubscribe:" ++ key)]
          else []
        | none => []
      else []
    ({ w with client := { w.client with
        subscriptions := w.client.subscriptions.filter (fun t => ¬ t.key = key) } }, outs)
  | WSEvent.openEvt sid =>
    match w.sockets.get? sid with
    | none => (w, [])
    | some r =>
      if r.handled = true ∨ ¬ r.phase = SockPhase.connecting then (w, [])
      else
        -- `onopen` lines 306-318: guard on `resolved`, then mark connected,
        -- reset the attempt counter, notify, start the heartbeat,
        -- `resubscribeAll()` (against `this.ws`, which may meanwhile have
        -- been replaced or nulled), and clear the pending promise.
        if r.resolved = true then
          ({ w with sockets := setSock w.sockets sid { r with phase := SockPhase.opened } }, [])
        else
          let sockets1 := setSock w.sockets sid
            { phase := SockPhase.opened, resolved := true, handled := false }
          let c1 : WSClientState :=
            { w.client with
              isConnected := true, reconnectAttempts := 0,
              heartbeatOn := true, connectPromise := false }
          ({ client := c1, sockets := sockets1, pendingReconnects := w.pendingReconnects },
           WSOut.status WSStatus.connected :: resubscribeAll c1 sockets1)
  | WSEvent.closeEvt sid =>
    match w.sockets.get? sid with
    | none => (w, [])
    | some r =>
      if r.handled = true then (w, [])
      else
        -- `onclose` lines 329-357.
        let c := w.client
        let wasManual := c.manualDisconnect
        let attempts := if wasManual then c.reconnectAttempts else c.reconnectAttempts + 1
        let statusOut := WSOut.status (if wasManual then WSStatus.offline else WSStatus.degraded)
        let c1 : WSClientState :=
          { c with
            isConnected := false, heartbeatOn := false,
            reconnectAttempts := attempts, manualDisconnect := false,
            connectPromise := false }
        if r.resolved = false then
          -- close before open: reject the promise and return (no reconnect).
          ({ client := c1,
             sockets := setSock w.sockets sid
               { phase := SockPhase.closed, resolved := true, handled := true },
             pendingReconnects := w.pendingReconnects }, [statusOut])
        else if wasManual then
          ({ client := c1,
             sockets := setSock w.sockets sid
               { r with phase := SockPhase.closed, handled := true },
             pendingReconnects := w.pendingReconnects }, [statusOut])
        else
          -- `handleReconnect` lines 603-615.
          let attempt := max 1 attempts
          let delay := min (reconnectDelay * 2 ^ (attempt - 1)) maxReconnectDelay
          ({ client := c1,
             sockets := setSock w.sockets sid
               { r with phase := SockPhase.closed, handled := true },
             pendingReconnects := w.pendingReconnects + 1 },
           [statusOut, WSOut.schedule delay])
  | WSEvent.errorEvt sid =>
    match w.sockets.get? sid with
    | none => (w, [])
    | some r =>
      -- `onerror` lines 359-368: guard on `resolved`, mark degraded, reject.
      if r.handled = true ∨ r.resolved = true then (w, [])
      else
        ({ w with
            client := { w.client with isConnected := false, connectPromise := false },
            sockets := setSock w.sockets sid { r with resolved := true } },
         [WSOut.status WSStatus.degraded])
  | WSEvent.timeoutEvt sid =>
    match w.sockets.get? sid with
    | none => (w, [])
    | some r =>
      -- the 15s watchdog (lines 294-300): reject unless already resolved.
      if r.resolved = true then (w, [])
      else ({ w with sockets := setSock w.sockets sid { r with resolved := true } }, [])
  | WSEvent.reconnectFire =>
    -- a scheduled `setTimeout(() => this.connect(), delay)` firing.
    if w.pendingReconnects = 0 then (w, [])
    else doConnect { w with pendingReconnects := w.pendingReconnects - 1 }

/-- Run a sequence of events, accumulating outputs. -/
def runTrace (w : WSWorld) : List WSEvent → WSWorld × List WSOut
  | [] => (w, [])
  | e :: rest =>
    let r1 := step w e
    let r2 := runTrace r1.1 rest
    (r2.1, r1.2 ++ r2.2)

/-- The world of a freshly constructed client: no socket, no subscription,
no pending promise or timer. -/
def initWorld : WSWorld :=
  { client := { ws := none, isConnected := false, manualDisconnect := false,
                reconnectAttempts := 0, subscriptions := [], connectPromise := false,
                heartbeatOn := false },
    sockets := [], pendingReconnects := 0 }

/-! ## Concrete inputs used by the claim theorems, witnesses and counterexamples -/

/-- The single Buy order of claim C6's scenario. -/
def C6order : OrderEvent :=
  { id := "o1", side := OrderSide.buy, volume := 100, timestamp := 0 }

/-- The Buy order of C1's counterexample trace. -/
def C1order : OrderEvent :=
  { id := "c1", side := OrderSide.buy, volume := 100, timestamp := 0 }

/-- The per-side totals match the queued per-side volumes, and every queued
volume is non-negative. -/
def SumsInv (st : AggState) : Prop :=
  st.buy = queueBuy st.queue ∧ st.sell = queueSell st.queue ∧
    ∀ e ∈ st.queue, 0 ≤ e.volume

/-- Both totals are non-negative. -/
def NonnegInv (st : AggState) : Prop := 0 ≤ st.buy ∧ 0 ≤ st.sell

/-- The events and operations of C2's counterexample trace. -/
def C2ops : List AggOp :=
  [AggOp.ingest 0 { id := "e1", side := OrderSide.buy, volume := 10, timestamp := 0 },
   AggOp.ingest 9000 { id := "e2", side := OrderSide.buy, volume := 5, timestamp := 9000 },
   AggOp.setWindow 9000 5]

/-- C3 counterexample input: a live trade whose price field is absent
(`Number(undefined) = NaN`) and whose size parses to 5. -/
def C3cexTrade : WsTrade :=
  { coin := "BTC", side := "B", isBuy := none, px := JsField.missing,
    sz := JsField.num 5, time := 1000, tid := none, hash := none }

/-- The claim's fallback clause instantiated at `C3cexTrade`: with the
price unavailable, an event should still be ingested with volume = size. -/
def C3cexPrediction : Prop :=
  ∃ e, (processTrade [] (initAgg 10000) "BTC" 1000 C3cexTrade "r1").2.2 = some e ∧
    e.volume = 5

/-- The concrete id-less trade of C10's witness. -/
def C10trade : WsTrade :=
  { coin := "BTC", side := "B", isBuy := none, px := JsField.num 3,
    sz := JsField.num 5, time := 1000, tid := none, hash := none }

/-- The connected one-subscription world of C5's witness. -/
def C5world : WSWorld :=
  { client := { ws := some 0, isConnected := true, manualDisconnect := false,
                reconnectAttempts := 0,
                subscriptions := [{ key := "trades:BTC", payload := "subscribe-trades-BTC" }],
                connectPromise := false, heartbeatOn := true },
    sockets := [{ phase := SockPhase.opened, resolved := true, handled := false }],
    pendingReconnects := 0 }

/-- The mid-reconnect world of C5's witness: socket 1 freshly created and
still connecting, the old socket closed. -/
def C5world2 : WSWorld :=
  { client := { ws := some 1, isConnected := false, manualDisconnect := false,
                reconnectAttempts := 1,
                subscriptions := [{ key := "trades:BTC", payload := "subscribe-trades-BTC" }],
                connectPromise := true, heartbeatOn := false },
    sockets := [{ phase := SockPhase.closed, resolved := true, handled := true },
                { phase := SockPhase.connecting, resolved := false, handled := false }],
    pendingReconnects := 0 }

/-- The concrete particle of C7's witness. -/
def C7particle : Particle :=
  { id := "p1", side := OrderSide.buy, volume := 1, birth := 0,
    duration := 1500, radius := 2 }

/-! ## Helper lemmas -/

theorem rmax_zero_nonneg (a : ℚ) : 0 ≤ rmax 0 a := by
  unfold rmax
  split
  · assumption
  · exact le_refl 0

theorem rmax_zero_of_nonneg {a : ℚ} (h : 0 ≤ a) : rmax 0 a = a := by
  unfold rmax
  exact if_pos h

theorem rmin_one_le_one (a : ℚ) : rmin 1 a ≤ 1 := by
  unfold rmin
  split
  · exact le_refl 1
  · linarith

theorem rmin_one_nonneg {a : ℚ} (h : 0 ≤ a) : 0 ≤ rmin 1 a := by
  unfold rmin
  split
  · norm_num
  · exact h

theorem rabs_of_nonneg {a : ℚ} (h : 0 ≤ a) : rabs a = a := by
  unfold rabs
  exact if_neg (by linarith)

theorem rabs_neg_arg (a : ℚ) : rabs (-a) = rabs a := by
  unfold rabs
  rcases lt_trichotomy a 0 with h | h | h
  · rw [if_neg (by linarith), if_pos h]
  · simp [h]
  · rw [if_pos (by linarith), if_neg (by linarith)]
    ring

/-- `pruneWindow` never touches the stored stats. -/
theorem pruneWindow_stats (now : ℚ) (st : AggState) :
    (pruneWindow now st).stats = st.stats := rfl

/-- `pruneWindow` never touches the window length. -/
theorem pruneWindow_windowMs (now : ℚ) (st : AggState) :
    (pruneWindow now st).windowMs = st.windowMs := rfl

/-- Running `pruneGo` on its own output changes nothing: the loop stops
only when the queue is empty or its front is inside the window. -/
theorem pruneGo_fixed (cutoff : ℚ) :
    ∀ (q : List OrderEvent) (b s : ℚ),
      pruneGo cutoff (pruneGo cutoff q b s).1 (pruneGo cutoff q b s).2.1
        (pruneGo cutoff q b s).2.2 = pruneGo cutoff q b s := by
  intro q
  induction q with
  | nil => intro b s; simp [pruneGo]
  | cons e rest ih =>
    intro b s
    by_cases h : e.timestamp < cutoff
    · simp only [pruneGo, if_pos h]
      exact ih _ _
    · simp [pruneGo, h]

/-- The fields of `updateStats`'s state are those of the pruned state. -/
theorem updateStats_fields (now : ℚ) (f : Bool) (st : AggState) :
    (updateStats now f st).1.queue = (pruneWindow now st).queue ∧
    (updateStats now f st).1.buy = (pruneWindow now st).buy ∧
    (updateStats now f st).1.sell = (pruneWindow now st).sell := by
  by_cases h : f = true ∨
      1/1000 < rabs ((computeNextStats now st).buyShare - (pruneWindow now st).stats.buyShare) ∨
      1/1000 < rabs ((computeNextStats now st).sellShare - (pruneWindow now st).stats.sellShare)
  · simp only [updateStats]
    rw [if_pos h]
    exact ⟨rfl, rfl, rfl⟩
  · simp only [updateStats]
    rw [if_neg h]
    exact ⟨rfl, rfl, rfl⟩

/-! ## Claim C6 -/

/-- C6: with EMA α = 0.2 and initial smoothed buyShare 0.5 (window 10s),
ingesting a single Buy event of volume 100 into an empty window yields a
raw share of 1.0 and a smoothed, published buyShare of exactly
0.2·1.0 + 0.8·0.5 = 0.6. -/
theorem C6_single_buy_ema :
    rawBuyShare (ingestOrder 0 C6order (initAgg 10000)).1.buy
        (ingestOrder 0 C6order (initAgg 10000)).1.sell = 1 ∧
    (ingestOrder 0 C6order (initAgg 10000)).2
      = some { buyShare := 3/5, sellShare := 2/5 } ∧
    (ingestOrder 0 C6order (initAgg 10000)).1.stats.buyShare = 3/5 := by
  norm_num [ingestOrder, updateStats, computeNextStats, pruneWindow, pruneGo,
    rawBuyShare, initAgg, emaAlpha, C6order, rmax, rmin, rabs]

/-! ## Claim C7 -/

/-- One spawn keeps the pool within capacity. -/
theorem spawnParticle_length_le (pool : List Particle) (p : Particle)
    (h : pool.length ≤ maxParticles) :
    (spawnParticle pool p).length ≤ maxParticles := by
  simp only [spawnParticle]
  split
  · simp only [List.length_drop]
    omega
  · simp only [List.length_append, List.length_cons] at *
    omega

/-- Any spawn sequence starting within capacity stays within capacity. -/
theorem foldl_spawnParticle_length (ps : List Particle) :
    ∀ pool : List Particle, pool.length ≤ maxParticles →
      (ps.foldl spawnParticle pool).length ≤ maxParticles := by
  induction ps with
  | nil => intro pool h; simpa using h
  | cons p rest ih =>
    intro pool h
    exact ih _ (spawnParticle_length_le pool p h)

/-- C7: after any sequence of spawns the particle pool holds at most 400
particles, and a spawn from a within-capacity pool appends the particle and
evicts exactly the excess oldest entries from the front (FIFO). -/
theorem C7_pool_capacity :
    (∀ ps : List Particle, (ps.foldl spawnParticle []).length ≤ maxParticles) ∧
    (∀ (pool : List Particle) (p : Particle), pool.length ≤ maxParticles →
      spawnParticle pool p = (pool ++ [p]).drop (pool.length + 1 - maxParticles) ∧
      (spawnParticle pool p).length = min (pool.length + 1) maxParticles) := by
  constructor
  · intro ps
    exact foldl_spawnParticle_length ps [] (by simp)
  · intro pool p h
    have hlen : (pool ++ [p]).length = pool.length + 1 := by simp
    unfold spawnParticle
    by_cases hc : maxParticles < (pool ++ [p]).length
    · rw [hlen] at hc
      rw [if_pos (by rw [hlen]; exact hc)]
      constructor
      · rw [hlen]
      · rw [List.length_drop, hlen]
        unfold maxParticles at *
        omega
    · rw [hlen] at hc
      rw [if_neg (by rw [hlen]; exact hc)]
      constructor
      · have h0 : pool.length + 1 - maxParticles = 0 := by
          unfold maxParticles at *
          omega
        rw [h0, List.drop_zero]
      · rw [hlen]
        unfold maxParticles at *
        omega

/-! ## Claim C8 -/

/-- C8: pruning is idempotent — for every aggregator state and fixed
current time, pruning twice with no events in between yields exactly the
same queue and the same buy/sell sums as pruning once. -/
theorem C8_prune_idempotent (now : ℚ) (st : AggState) :
    pruneWindow now (pruneWindow now st) = pruneWindow now st := by
  simp [pruneWindow, pruneGo_fixed]

/-! ## Claim C1 -/

/-- C1 counterexample: ingest one Buy(100) at t=0 with a 10s window (the
stored share becomes 0.6), then update at t=20000: the window is empty
after pruning, yet the returned/published buyShare is 29/50 = 0.58, not
0.5 — the empty-window result does depend on the previously stored share. -/
theorem C1_cex :
    (pruneWindow 20000 (ingestOrder 0 C1order (initAgg 10000)).1).queue = [] ∧
    (updateStats 20000 false (ingestOrder 0 C1order (initAgg 10000)).1).2
      = some { buyShare := 29/50, sellShare := 21/50 } ∧
    ¬ (29/50 : ℚ) = 1/2 := by
  norm_num [ingestOrder, updateStats, computeNextStats, pruneWindow, pruneGo,
    rawBuyShare, initAgg, emaAlpha, C1order, rmax, rmin, rabs]

/-- C1 (amended): the computed share is always clamped into [0,1]; with an
empty window (pruned totals at 0) the raw share is 0.5 and the returned
share is the EMA `α·0.5 + (1−α)·prev` — which equals 0.5 exactly when the
previously stored share is 0.5, not regardless of it. -/
theorem C1_share_bounds (now : ℚ) (st : AggState) :
    0 ≤ (computeNextStats now st).buyShare ∧
    (computeNextStats now st).buyShare ≤ 1 ∧
    ((pruneWindow now st).buy + (pruneWindow now st).sell ≤ 0 →
      (computeNextStats now st).buyShare
        = rmin 1 (rmax 0 (emaAlpha * (1/2) + (1 - emaAlpha) * st.stats.buyShare)) ∧
      (st.stats.buyShare = 1/2 → (computeNextStats now st).buyShare = 1/2)) := by
  have hb : (computeNextStats now st).buyShare
      = rmin 1 (rmax 0 (emaAlpha
          * rawBuyShare (pruneWindow now st).buy (pruneWindow now st).sell
          + (1 - emaAlpha) * (pruneWindow now st).stats.buyShare)) := rfl
  refine ⟨?_, ?_, ?_⟩
  · rw [hb]
    exact rmin_one_nonneg (rmax_zero_nonneg _)
  · rw [hb]
    exact rmin_one_le_one _
  · intro hz
    have hraw : rawBuyShare (pruneWindow now st).buy (pruneWindow now st).sell = 1/2 := by
      unfold rawBuyShare
      rw [if_neg (by linarith)]
    constructor
    · rw [hb, hraw, pruneWindow_stats]
    · intro hhalf
      rw [hb, hraw, pruneWindow_stats, hhalf]
      norm_num [emaAlpha, rmin, rmax]

/-- C1 witness: at the initial state the bounds hold and the empty-window
share is 0.5 (the stored share being 0.5 there). -/
theorem C1_share_bounds_witness :
    0 ≤ (computeNextStats 0 (initAgg 10000)).buyShare ∧
    (computeNextStats 0 (initAgg 10000)).buyShare = 1/2 :=
  ⟨(C1_share_bounds 0 (initAgg 10000)).1,
   ((C1_share_bounds 0 (initAgg 10000)).2.2
      (by norm_num [pruneWindow, pruneGo, initAgg])).2 (by norm_num [initAgg])⟩

/-! ## Claim C2 -/

theorem queueBuy_nil : queueBuy [] = 0 := rfl

theorem queueSell_nil : queueSell [] = 0 := rfl

theorem queueBuy_cons (e : OrderEvent) (q : List OrderEvent) :
    queueBuy (e :: q)
      = (if e.side = OrderSide.buy then e.volume else 0) + queueBuy q := by
  simp [queueBuy]

theorem queueSell_cons (e : OrderEvent) (q : List OrderEvent) :
    queueSell (e :: q)
      = (if e.side = OrderSide.buy then 0 else e.volume) + queueSell q := by
  simp [queueSell]

theorem queueVolume_cons (e : OrderEvent) (q : List OrderEvent) :
    queueVolume (e :: q) = e.volume + queueVolume q := by
  simp [queueVolume]

theorem queueBuy_append (q1 q2 : List OrderEvent) :
    queueBuy (q1 ++ q2) = queueBuy q1 + queueBuy q2 := by
  simp [queueBuy]

theorem queueSell_append (q1 q2 : List OrderEvent) :
    queueSell (q1 ++ q2) = queueSell q1 + queueSell q2 := by
  simp [queueSell]

theorem queueBuy_nonneg (q : List OrderEvent) (h : ∀ e ∈ q, 0 ≤ e.volume) :
    0 ≤ queueBuy q := by
  induction q with
  | nil => simp [queueBuy]
  | cons e rest ih =>
    rw [queueBuy_cons]
    have h1 : 0 ≤ e.volume := h e (by simp)
    have h2 : 0 ≤ queueBuy rest := ih (fun x hx => h x (by simp [hx]))
    split <;> linarith

theorem queueSell_nonneg (q : List OrderEvent) (h : ∀ e ∈ q, 0 ≤ e.volume) :
    0 ≤ queueSell q := by
  induction q with
  | nil => simp [queueSell]
  | cons e rest ih =>
    rw [queueSell_cons]
    have h1 : 0 ≤ e.volume := h e (by simp)
    have h2 : 0 ≤ queueSell rest := ih (fun x hx => h x (by simp [hx]))
    split <;> linarith

theorem queueBuy_add_queueSell (q : List OrderEvent) :
    queueBuy q + queueSell q = queueVolume q := by
  induction q with
  | nil => simp [queueBuy, queueSell, queueVolume]
  | cons e rest ih =>
    rw [queueBuy_cons, queueSell_cons, queueVolume_cons]
    split <;> linarith

theorem pruneGo_sums (cutoff : ℚ) :
    ∀ (q : List OrderEvent) (b s : ℚ),
      b = queueBuy q → s = queueSell q → (∀ e ∈ q, 0 ≤ e.volume) →
      (pruneGo cutoff q b s).2.1 = queueBuy (pruneGo cutoff q b s).1 ∧
      (pruneGo cutoff q b s).2.2 = queueSell (pruneGo cutoff q b s).1 ∧
      ∀ e ∈ (pruneGo cutoff q b s).1, 0 ≤ e.volume := by
  intro q
  induction q with
  | nil =>
    intro b s hb hs hv
    simp only [pruneGo]
    exact ⟨hb, hs, hv⟩
  | cons e rest ih =>
    intro b s hb hs hv
    have hvol : 0 ≤ e.volume := hv e (by simp)
    have hvrest : ∀ x ∈ rest, 0 ≤ x.volume := fun x hx => hv x (by simp [hx])
    have hbuyrest : 0 ≤ queueBuy rest := queueBuy_nonneg rest hvrest
    have hsellrest : 0 ≤ queueSell rest := queueSell_nonneg rest hvrest
    by_cases hc : e.timestamp < cutoff
    · simp only [pruneGo, if_pos hc]
      have hb1 : rmax 0 (if e.side = OrderSide.buy then b - e.volume else b)
          = queueBuy rest := by
        by_cases hside : e.side = OrderSide.buy
        · rw [if_pos hside, hb, queueBuy_cons, if_pos hside]
          have harith : e.volume + queueBuy rest - e.volume = queueBuy rest := by ring
          rw [harith, rmax_zero_of_nonneg hbuyrest]
        · rw [if_neg hside, hb, queueBuy_cons, if_neg hside, zero_add,
            rmax_zero_of_nonneg hbuyrest]
      have hs1 : rmax 0 (if e.side = OrderSide.buy then s else s - e.volume)
          = queueSell rest := by
        by_cases hside : e.side = OrderSide.buy
        · rw [if_pos hside, hs, queueSell_cons, if_pos hside, zero_add,
            rmax_zero_of_nonneg hsellrest]
        · rw [if_neg hside, hs, queueSell_cons, if_neg hside]
          have harith : e.volume + queueSell rest - e.volume = queueSell rest := by ring
          rw [harith, rmax_zero_of_nonneg hsellrest]
      exact ih _ _ hb1 hs1 hvrest
    · simp only [pruneGo, if_neg hc]
      exact ⟨hb, hs, hv⟩

theorem pruneWindow_SumsInv {st : AggState} (now : ℚ) (h : SumsInv st) :
    SumsInv (pruneWindow now st) := by
  obtain ⟨hb, hs, hv⟩ := h
  exact pruneGo_sums (now - st.windowMs) st.queue st.buy st.sell hb hs hv

theorem updateStats_SumsInv {st : AggState} (now : ℚ) (f : Bool) (h : SumsInv st) :
    SumsInv (updateStats now f st).1 := by
  obtain ⟨h1, h2, h3⟩ := updateStats_fields now f st
  unfold SumsInv
  rw [h1, h2, h3]
  exact pruneWindow_SumsInv now h

theorem ingestOrder_SumsInv {st : AggState} (now : ℚ) {e : OrderEvent}
    (hvol : 0 ≤ e.volume) (h : SumsInv st) :
    SumsInv (ingestOrder now e st).1 := by
  obtain ⟨hb, hs, hv⟩ := h
  have hbuyq : 0 ≤ queueBuy st.queue := queueBuy_nonneg st.queue hv
  have hsellq : 0 ≤ queueSell st.queue := queueSell_nonneg st.queue hv
  apply updateStats_SumsInv
  refine ⟨?_, ?_, ?_⟩
  · show rmax 0 (if e.side = OrderSide.buy then st.buy + e.volume else st.buy)
        = queueBuy (st.queue ++ [e])
    rw [queueBuy_append, queueBuy_cons, queueBuy_nil]
    by_cases hside : e.side = OrderSide.buy
    · rw [if_pos hside, if_pos hside, hb, rmax_zero_of_nonneg (by linarith)]
      ring
    · rw [if_neg hside, if_neg hside, hb, rmax_zero_of_nonneg (by linarith)]
      ring
  · show rmax 0 (if e.side = OrderSide.buy then st.sell else st.sell + e.volume)
        = queueSell (st.queue ++ [e])
    rw [queueSell_append, queueSell_cons, queueSell_nil]
    by_cases hside : e.side = OrderSide.buy
    · rw [if_pos hside, if_pos hside, hs, rmax_zero_of_nonneg (by linarith)]
      ring
    · rw [if_neg hside, if_neg hside, hs, rmax_zero_of_nonneg (by linarith)]
      ring
  · show ∀ x ∈ st.queue ++ [e], 0 ≤ x.volume
    intro x hx
    rcases List.mem_append.mp hx with hx1 | hx1
    · exact hv x hx1
    · rw [List.mem_singleton.mp hx1]
      exact hvol

theorem pruneGo_nonneg (cutoff : ℚ) :
    ∀ (q : List OrderEvent) (b s : ℚ), 0 ≤ b → 0 ≤ s →
      0 ≤ (pruneGo cutoff q b s).2.1 ∧ 0 ≤ (pruneGo cutoff q b s).2.2 := by
  intro q
  induction q with
  | nil =>
    intro b s hbn hsn
    exact ⟨hbn, hsn⟩
  | cons e rest ih =>
    intro b s hbn hsn
    by_cases hc : e.timestamp < cutoff
    · simp only [pruneGo, if_pos hc]
      exact ih _ _ (rmax_zero_nonneg _) (rmax_zero_nonneg _)
    · simp only [pruneGo, if_neg hc]
      exact ⟨hbn, hsn⟩

theorem pruneWindow_Nonneg {st : AggState} (now : ℚ) (h : NonnegInv st) :
    NonnegInv (pruneWindow now st) :=
  pruneGo_nonneg (now - st.windowMs) st.queue st.buy st.sell h.1 h.2

theorem updateStats_Nonneg {st : AggState} (now : ℚ) (f : Bool) (h : NonnegInv st) :
    NonnegInv (updateStats now f st).1 := by
  obtain ⟨_, h2, h3⟩ := updateStats_fields now f st
  unfold NonnegInv
  rw [h2, h3]
  exact pruneWindow_Nonneg now h

theorem applyAggOp_Nonneg {st : AggState} (op : AggOp) (h : NonnegInv st) :
    NonnegInv (applyAggOp st op) := by
  cases op with
  | ingest now e =>
    apply updateStats_Nonneg
    exact ⟨rmax_zero_nonneg _, rmax_zero_nonneg _⟩
  | prune now => exact pruneWindow_Nonneg now h
  | setWindow now seconds =>
    apply updateStats_Nonneg
    exact ⟨rmax_zero_nonneg _, rmax_zero_nonneg _⟩

theorem applyAggOp_SumsInv {st : AggState} {op : AggOp} (hvol : op.volNonneg)
    (hnsw : ¬ op.isSetWindow) (h : SumsInv st) : SumsInv (applyAggOp st op) := by
  cases op with
  | ingest now e => exact ingestOrder_SumsInv now hvol h
  | prune now => exact pruneWindow_SumsInv now h
  | setWindow now seconds => exact absurd trivial hnsw

theorem foldl_Nonneg (ops : List AggOp) :
    ∀ st : AggState, NonnegInv st → NonnegInv (ops.foldl applyAggOp st) := by
  induction ops with
  | nil => intro st h; simpa using h
  | cons op rest ih =>
    intro st h
    exact ih _ (applyAggOp_Nonneg op h)

theorem foldl_SumsInv (ops : List AggOp) :
    ∀ st : AggState, SumsInv st → (∀ op ∈ ops, op.volNonneg) →
      (∀ op ∈ ops, ¬ op.isSetWindow) → SumsInv (ops.foldl applyAggOp st) := by
  induction ops with
  | nil => intro st h _ _; simpa using h
  | cons op rest ih =>
    intro st h hvol hnsw
    exact ih _ (applyAggOp_SumsInv (hvol op (by simp)) (hnsw op (by simp)) h)
      (fun x hx => hvol x (by simp [hx])) (fun x hx => hnsw x (by simp [hx]))

/-- C2 (amended): for every sequence of ingest, prune and
window-length-change operations with non-negative event volumes, both
running sums stay non-negative; and for sequences of ingest and prune
operations only (no window-length change) the buy sum plus the sell sum
equals the total volume of the currently queued events.  A window-length
change recomputes the sums over only the in-window queued events without
evicting stale ones, so the prune that follows it double-discounts them and
the equality can fail (see the counterexample). -/
theorem C2_sums_invariant (w0 : ℚ) (ops : List AggOp)
    (hvol : ∀ op ∈ ops, op.volNonneg) :
    (0 ≤ (ops.foldl applyAggOp (initAgg w0)).buy ∧
     0 ≤ (ops.foldl applyAggOp (initAgg w0)).sell) ∧
    ((∀ op ∈ ops, ¬ op.isSetWindow) →
      (ops.foldl applyAggOp (initAgg w0)).buy + (ops.foldl applyAggOp (initAgg w0)).sell
        = queueVolume (ops.foldl applyAggOp (initAgg w0)).queue) := by
  constructor
  · exact foldl_Nonneg ops (initAgg w0) ⟨le_refl 0, le_refl 0⟩
  · intro hnsw
    have hinv := foldl_SumsInv ops (initAgg w0) ⟨rfl, rfl, by simp [initAgg]⟩ hvol hnsw
    rw [hinv.1, hinv.2.1]
    exact queueBuy_add_queueSell _

/-- C2 witness: a concrete ingest-then-prune trace where the sums balance
the queue. -/
theorem C2_sums_invariant_witness :
    (0 ≤ (([AggOp.ingest 0 { id := "w2", side := OrderSide.buy, volume := 7, timestamp := 0 },
            AggOp.prune 500] : List AggOp).foldl applyAggOp (initAgg 10000)).buy ∧
     0 ≤ (([AggOp.ingest 0 { id := "w2", side := OrderSide.buy, volume := 7, timestamp := 0 },
            AggOp.prune 500] : List AggOp).foldl applyAggOp (initAgg 10000)).sell) ∧
    (([AggOp.ingest 0 { id := "w2", side := OrderSide.buy, volume := 7, timestamp := 0 },
       AggOp.prune 500] : List AggOp).foldl applyAggOp (initAgg 10000)).buy
        + (([AggOp.ingest 0 { id := "w2", side := OrderSide.buy, volume := 7, timestamp := 0 },
             AggOp.prune 500] : List AggOp).foldl applyAggOp (initAgg 10000)).sell
        = queueVolume (([AggOp.ingest 0 { id := "w2", side := OrderSide.buy, volume := 7, timestamp := 0 },
             AggOp.prune 500] : List AggOp).foldl applyAggOp (initAgg 10000)).queue := by
  have h := C2_sums_invariant 10000
    [AggOp.ingest 0 { id := "w2", side := OrderSide.buy, volume := 7, timestamp := 0 },
     AggOp.prune 500]
    (by intro op hop
        simp only [List.mem_cons, List.mem_singleton] at hop
        rcases hop with rfl | rfl | h0
        · norm_num [AggOp.volNonneg]
        · trivial
        · cases h0)
  exact ⟨h.1, h.2 (by
    intro op hop
    simp only [List.mem_cons, List.mem_singleton] at hop
    rcases hop with rfl | rfl | h0
    · simp [AggOp.isSetWindow]
    · simp [AggOp.isSetWindow]
    · cases h0)⟩

/-- C2 counterexample: ingest Buy(10) at t=0 and Buy(5) at t=9000 under a
10s window, then shrink the window to 5s at t=9000 (all volumes
non-negative).  The recompute excludes the stale first event but leaves it
queued, and the immediately following prune subtracts its volume again
(clamped at 0): the final sums are 0 although an event of volume 5 is still
queued — the claimed equality fails. -/
theorem C2_cex :
    (∀ op ∈ C2ops, op.volNonneg) ∧
    ¬ ((C2ops.foldl applyAggOp (initAgg 10000)).buy
        + (C2ops.foldl applyAggOp (initAgg 10000)).sell
        = queueVolume (C2ops.foldl applyAggOp (initAgg 10000)).queue) := by
  constructor
  · intro op hop
    simp only [C2ops, List.mem_cons, List.mem_singleton] at hop
    rcases hop with rfl | rfl | rfl | h0
    · norm_num [AggOp.volNonneg]
    · norm_num [AggOp.volNonneg]
    · trivial
    · cases h0
  · norm_num [C2ops, applyAggOp, ingestOrder, setWindowLength, recomputeTotals,
      updateStats, computeNextStats, pruneWindow, pruneGo, rawBuyShare, initAgg,
      emaAlpha, rmax, rmin, rabs, queueVolume]

/-! ## Claim C9 -/

/-- C9: when `force` is not set and the newly computed smoothed share is
within the 0.001 epsilon of the stored one (the stored stats satisfying
`sellShare = 1 − buyShare`, as every reachable stored value does), the
update leaves the stored stats unchanged and invokes no callback; and
whenever a value is published, the stored stats equal it — so the stored
and last-published shares always coincide. -/
theorem C9_epsilon_frame (now : ℚ) (st : AggState)
    (hsell : st.stats.sellShare = 1 - st.stats.buyShare)
    (heps : rabs ((computeNextStats now st).buyShare - st.stats.buyShare) ≤ 1/1000) :
    updateStats now false st = (pruneWindow now st, none) ∧
    (updateStats now false st).1.stats = st.stats ∧
    (∀ (now2 : ℚ) (f : Bool) (st2 : AggState) (s : OrderflowStats),
      (updateStats now2 f st2).2 = some s → (updateStats now2 f st2).1.stats = s) := by
  have hnextsell : (computeNextStats now st).sellShare
      = 1 - (computeNextStats now st).buyShare := rfl
  have hcond : ¬ ((false : Bool) = true ∨
      1/1000 < rabs ((computeNextStats now st).buyShare
        - (pruneWindow now st).stats.buyShare) ∨
      1/1000 < rabs ((computeNextStats now st).sellShare
        - (pruneWindow now st).stats.sellShare)) := by
    rw [pruneWindow_stats]
    push_neg
    refine ⟨by simp, heps, ?_⟩
    have hflip : (computeNextStats now st).sellShare - st.stats.sellShare
        = -((computeNextStats now st).buyShare - st.stats.buyShare) := by
      rw [hnextsell, hsell]
      ring
    rw [hflip, rabs_neg_arg]
    exact heps
  have h1 : updateStats now false st = (pruneWindow now st, none) := by
    simp only [updateStats]
    rw [if_neg hcond]
  refine ⟨h1, ?_, ?_⟩
  · rw [h1]
    exact pruneWindow_stats now st
  · intro now2 f st2 s hsome
    by_cases hc : f = true ∨
        1/1000 < rabs ((computeNextStats now2 st2).buyShare
          - (pruneWindow now2 st2).stats.buyShare) ∨
        1/1000 < rabs ((computeNextStats now2 st2).sellShare
          - (pruneWindow now2 st2).stats.sellShare)
    · simp only [updateStats] at hsome ⊢
      rw [if_pos hc] at hsome ⊢
      simp only [Option.some.injEq] at hsome
      rw [← hsome]
    · simp only [updateStats] at hsome
      rw [if_neg hc] at hsome
      simp at hsome

/-- C9 witness: at the initial state (stored share 0.5, consistent
sellShare) an unforced update changes nothing and publishes nothing. -/
theorem C9_epsilon_frame_witness :
    updateStats 0 false (initAgg 10000) = (pruneWindow 0 (initAgg 10000), none) ∧
    (updateStats 0 false (initAgg 10000)).1.stats = (initAgg 10000).stats :=
  have h := C9_epsilon_frame 0 (initAgg 10000) (by norm_num [initAgg])
    (by norm_num [computeNextStats, pruneWindow, pruneGo, rawBuyShare, initAgg,
      emaAlpha, rmin, rmax, rabs])
  ⟨h.1, h.2.1⟩

/-! ## Claim C3 -/

/-- C3 counterexample: the pipeline drops a trade whose price is
unavailable — `handleTrade` rejects any NaN price before the hook's
size-only fallback could ever apply, so no event is ingested. -/
theorem C3_cex : ¬ C3cexPrediction := by
  intro h
  obtain ⟨e, he, _⟩ := h
  simp [processTrade, handleTrade, C3cexTrade, JsField.toNumber] at he

/-- C3 (amended): if `Number(price)` or `Number(size)` is NaN the trade is
dropped — no event is ingested, the recent-id set and the window state are
unchanged; otherwise any ingested event carries
`volume = max(0, size·price)`.  There is no fallback to size alone: an
unavailable or non-numeric price always drops the trade. -/
theorem C3_trade_normalization (seen : List String) (st : AggState)
    (subCoin : String) (now : ℚ) (t : WsTrade) (rand : String) :
    ((t.px.toNumber = none ∨ t.sz.toNumber = none) →
      processTrade seen st subCoin now t rand = (seen, st, none)) ∧
    (∀ px sz : ℚ, t.px.toNumber = some px → t.sz.toNumber = some sz →
      ∀ e, (processTrade seen st subCoin now t rand).2.2 = some e →
        e.volume = rmax 0 (sz * px)) := by
  constructor
  · intro h
    unfold processTrade handleTrade
    cases hpx2 : t.px.toNumber with
    | none => simp
    | some px2 =>
      cases hsz2 : t.sz.toNumber with
      | none => simp
      | some sz2 =>
        rcases h with h | h
        · rw [h] at hpx2
          cases hpx2
        · rw [h] at hsz2
          cases hsz2
  · intro px sz hpx hsz e he
    unfold processTrade handleTrade at he
    rw [hpx, hsz] at he
    simp only [] at he
    unfold tradeCallback at he
    by_cases hmem :
        (match (match t.tid with
                | some x => some x
                | none => t.hash) with
         | some x => x
         | none => mkGenId (tradeCoin t subCoin) (tradeTime t now) rand) ∈ seen
    · rw [if_pos hmem] at he
      simp at he
    · rw [if_neg hmem] at he
      simp only [Option.some.injEq] at he
      rw [← he]

/-- C3 witness: a concrete malformed trade (`px = "abc"`, `sz = "5"`) is
dropped with the recent-id set and window state unchanged. -/
theorem C3_trade_normalization_witness :
    processTrade [] (initAgg 10000) "BTC" 1000
      { coin := "BTC", side := "B", isBuy := none, px := JsField.nonNumeric,
        sz := JsField.num 5, time := 1000, tid := none, hash := none } "r2"
      = ([], initAgg 10000, none) :=
  (C3_trade_normalization [] (initAgg 10000) "BTC" 1000
      { coin := "BTC", side := "B", isBuy := none, px := JsField.nonNumeric,
        sz := JsField.num 5, time := 1000, tid := none, hash := none } "r2").1
    (Or.inl rfl)

/-! ## Claim C10 -/

/-- Generated fallback ids for the same coin and time differ whenever the
random suffixes differ. -/
theorem mkGenId_inj_rand {c : String} {t : ℚ} {r1 r2 : String}
    (h : mkGenId c t r1 = mkGenId c t r2) : r1 = r2 := by
  unfold mkGenId at h
  have hd := congrArg String.data h
  simp only [String.data_append, List.append_assoc] at hd
  have hd1 := List.append_cancel_left hd
  have hd2 := List.append_cancel_left hd1
  have hd3 := List.append_cancel_left hd2
  have hd4 := List.append_cancel_left hd3
  cases r1
  cases r2
  exact congrArg String.mk hd4

/-- C10: a live trade delivered without both `tid` and `hash` gets the
freshly generated random id before the duplicate check; with a fresh random
suffix it always passes de-duplication and is ingested — even when the
identical record is delivered twice (with fresh suffixes). -/
theorem C10_random_id_no_dedup (seen : List String) (st : AggState)
    (subCoin : String) (now : ℚ) (t : WsTrade) (rand1 rand2 : String) (px sz : ℚ)
    (htid : t.tid = none) (hhash : t.hash = none)
    (hpx : t.px.toNumber = some px) (hsz : t.sz.toNumber = some sz)
    (hfresh1 : mkGenId (tradeCoin t subCoin) (tradeTime t now) rand1 ∉ seen)
    (hfresh2 : mkGenId (tradeCoin t subCoin) (tradeTime t now) rand2 ∉ seen)
    (hrand : ¬ rand1 = rand2) :
    (∃ e, (processTrade seen st subCoin now t rand1).2.2 = some e ∧
      e.id = mkGenId (tradeCoin t subCoin) (tradeTime t now) rand1) ∧
    (∃ e2, (processTrade (processTrade seen st subCoin now t rand1).1
        (processTrade seen st subCoin now t rand1).2.1 subCoin now t rand2).2.2
      = some e2) := by
  have hpipe : ∀ (seen0 : List String) (st0 : AggState) (r : String),
      mkGenId (tradeCoin t subCoin) (tradeTime t now) r ∉ seen0 →
      ∃ e, (processTrade seen0 st0 subCoin now t r).2.2 = some e ∧
        e.id = mkGenId (tradeCoin t subCoin) (tradeTime t now) r ∧
        (processTrade seen0 st0 subCoin now t r).1
          = (if 500 < (seen0 ++ [mkGenId (tradeCoin t subCoin) (tradeTime t now) r]).length
             then (seen0 ++ [mkGenId (tradeCoin t subCoin) (tradeTime t now) r]).drop
               ((seen0 ++ [mkGenId (tradeCoin t subCoin) (tradeTime t now) r]).length - 400)
             else seen0 ++ [mkGenId (tradeCoin t subCoin) (tradeTime t now) r]) := by
    intro seen0 st0 r hfresh
    unfold processTrade handleTrade
    rw [hpx, hsz]
    simp only []
    unfold tradeCallback
    rw [htid, hhash]
    simp only []
    rw [if_neg hfresh]
    exact ⟨_, rfl, rfl, rfl⟩
  obtain ⟨e1, he1, hid1, hseen1⟩ := hpipe seen st rand1 hfresh1
  refine ⟨⟨e1, he1, hid1⟩, ?_⟩
  have hfresh2' : mkGenId (tradeCoin t subCoin) (tradeTime t now) rand2
      ∉ (processTrade seen st subCoin now t rand1).1 := by
    rw [hseen1]
    intro hmem
    have hmem1 : mkGenId (tradeCoin t subCoin) (tradeTime t now) rand2
        ∈ seen ++ [mkGenId (tradeCoin t subCoin) (tradeTime t now) rand1] := by
      by_cases hc : 500 < (seen ++ [mkGenId (tradeCoin t subCoin) (tradeTime t now) rand1]).length
      · rw [if_pos hc] at hmem
        exact List.drop_subset _ _ hmem
      · rw [if_neg hc] at hmem
        exact hmem
    rcases List.mem_append.mp hmem1 with hm | hm
    · exact hfresh2 hm
    · exact hrand (mkGenId_inj_rand (List.mem_singleton.mp hm)).symm
  obtain ⟨e2, he2, _, _⟩ := hpipe _ _ rand2 hfresh2'
  exact ⟨e2, he2⟩

/-- C10 witness: a concrete id-less, well-formed trade is ingested twice in
a row from the empty recent-id set, given two distinct random suffixes. -/
theorem C10_random_id_no_dedup_witness :
    (∃ e, (processTrade [] (initAgg 10000) "BTC" 0 C10trade "aaaaa").2.2 = some e ∧
      e.id = mkGenId (tradeCoin C10trade "BTC") (tradeTime C10trade 0) "aaaaa") ∧
    (∃ e2, (processTrade
        (processTrade [] (initAgg 10000) "BTC" 0 C10trade "aaaaa").1
        (processTrade [] (initAgg 10000) "BTC" 0 C10trade "aaaaa").2.1
        "BTC" 0 C10trade "bbbbb").2.2 = some e2) :=
  C10_random_id_no_dedup [] (initAgg 10000) "BTC" 0 C10trade "aaaaa" "bbbbb" 3 5
    rfl rfl rfl rfl (List.not_mem_nil _) (List.not_mem_nil _) (by decide)

/-! ## Claim C4 -/

/-- C4 failing trace: `connect()` (socket 0 created, still CONNECTING),
`disconnect()` (manual, subscriptions cleared, status offline), then socket
0's `open` event fires.  The `onopen` handler never checks
`manualDisconnect`: it sets `isConnected = true` and notifies `connected` —
the client returns to Connected with no new `connect()` call, violating the
claimed permanence of `disconnect()`. -/
theorem C4_disconnect_inflight_bug :
    (runTrace initWorld
        [WSEvent.connectCall, WSEvent.disconnectCall,
         WSEvent.openEvt 0]).1.client.isConnected = true ∧
    (runTrace initWorld
        [WSEvent.connectCall, WSEvent.disconnectCall,
         WSEvent.openEvt 0]).1.client.subscriptions = [] ∧
    (runTrace initWorld
        [WSEvent.connectCall, WSEvent.disconnectCall, WSEvent.openEvt 0]).2
      = [WSOut.status WSStatus.connecting, WSOut.created 0,
         WSOut.status WSStatus.offline, WSOut.status WSStatus.connected] := by
  decide

/-! ## Claim C5 -/

/-- Setting a socket's record at a valid index is observed by `get?`. -/
theorem setSock_get {sockets : List SockRec} {sid : ℕ} {rold : SockRec}
    (r : SockRec) (h : sockets.get? sid = some rold) :
    (setSock sockets sid r).get? sid = some r := by
  have hlt : sid < sockets.length := by
    rcases List.get?_eq_some.mp h with ⟨hl, _⟩
    exact hl
  unfold setSock
  rw [List.get?_eq_getElem?]
  exact List.getElem?_set_eq_of_lt r hlt

/-- C5: when a Connected, resolved connection closes and the disconnect was
not caller-initiated, the client notifies Degraded, stops the heartbeat,
increments the attempt counter and schedules a reconnect after
`min(1000 · 2^(attempt−1), 30000)` ms — exactly the base 1000 ms on the
first retry; and when a (re)connect attempt's socket opens, the client is
Connected with the attempt counter reset and every registered subscription
payload is re-sent on the new socket. -/
theorem C5_backoff_and_resubscribe :
    (∀ (w : WSWorld) (sid : ℕ) (r : SockRec),
      w.sockets.get? sid = some r → r.handled = false → r.resolved = true →
      w.client.isConnected = true → w.client.manualDisconnect = false →
      (step w (WSEvent.closeEvt sid)).2
        = [WSOut.status WSStatus.degraded,
           WSOut.schedule (min (reconnectDelay * 2 ^ w.client.reconnectAttempts)
             maxReconnectDelay)] ∧
      (step w (WSEvent.closeEvt sid)).1.client.reconnectAttempts
        = w.client.reconnectAttempts + 1 ∧
      (step w (WSEvent.closeEvt sid)).1.client.isConnected = false ∧
      (step w (WSEvent.closeEvt sid)).1.client.heartbeatOn = false ∧
      (step w (WSEvent.closeEvt sid)).1.pendingReconnects
        = w.pendingReconnects + 1 ∧
      (w.client.reconnectAttempts = 0 →
        (step w (WSEvent.closeEvt sid)).2
          = [WSOut.status WSStatus.degraded, WSOut.schedule 1000])) ∧
    (∀ (w : WSWorld) (sid : ℕ) (r : SockRec),
      w.client.ws = some sid → w.sockets.get? sid = some r →
      r.phase = SockPhase.connecting → r.handled = false → r.resolved = false →
      (step w (WSEvent.openEvt sid)).1.client.isConnected = true ∧
      (step w (WSEvent.openEvt sid)).1.client.reconnectAttempts = 0 ∧
      (step w (WSEvent.openEvt sid)).2
        = WSOut.status WSStatus.connected
            :: w.client.subscriptions.map (fun s => WSOut.send sid s.payload)) := by
  constructor
  · intro w sid r hget hh hres hconn hman
    have hmax : max 1 (w.client.reconnectAttempts + 1) - 1
        = w.client.reconnectAttempts := by omega
    simp only [step, hget, hh, hres, hman]
    simp [hmax]
    intro h0
    rw [h0]
    decide
  · intro w sid r hws hget hphase hh hres
    have hopen : (setSock w.sockets sid
        { phase := SockPhase.opened, resolved := true, handled := false }).get? sid
        = some { phase := SockPhase.opened, resolved := true, handled := false } :=
      setSock_get _ hget
    simp only [step, hget, hh, hres, hphase]
    rw [if_neg (by simp)]
    rw [if_neg (by simp)]
    refine ⟨rfl, rfl, ?_⟩
    simp only [resubscribeAll, hws, sockIsOpen, hopen]
    simp

/-- C5 witness: from a concrete Connected world the abnormal close notifies
Degraded and schedules the base 1000 ms retry, and the subsequent open on
the new socket re-sends the registered subscription. -/
theorem C5_backoff_and_resubscribe_witness :
    (step C5world (WSEvent.closeEvt 0)).2
      = [WSOut.status WSStatus.degraded, WSOut.schedule 1000] ∧
    (step C5world2 (WSEvent.openEvt 1)).1.client.isConnected = true ∧
    (step C5world2 (WSEvent.openEvt 1)).2
      = WSOut.status WSStatus.connected
          :: C5world2.client.subscriptions.map (fun s => WSOut.send 1 s.payload) :=
  ⟨(C5_backoff_and_resubscribe.1 C5world 0
      { phase := SockPhase.opened, resolved := true, handled := false }
      rfl rfl rfl rfl rfl).2.2.2.2.2 rfl,
   (C5_backoff_and_resubscribe.2 C5world2 1
      { phase := SockPhase.connecting, resolved := false, handled := false }
      rfl rfl rfl rfl rfl).1,
   (C5_backoff_and_resubscribe.2 C5world2 1
      { phase := SockPhase.connecting, resolved := false, handled := false }
      rfl rfl rfl rfl rfl).2.2⟩

/-- C7 witness: a single spawn into the empty pool stays within capacity
and appends without evicting anything. -/
theorem C7_pool_capacity_witness :
    ([C7particle].foldl spawnParticle []).length ≤ maxParticles ∧
    spawnParticle [] C7particle
      = (([] : List Particle) ++ [C7particle]).drop
          (List.length ([] : List Particle) + 1 - maxParticles) :=
  ⟨C7_pool_capacity.1 [C7particle],
   (C7_pool_capacity.2 [] C7particle (by decide)).1⟩

end Orderflow
